import Mathlib

/-!
Verification of the resilient multi-source acquisition subsystem of the
Brazil property API: the scraper coordinator (dedup, enrichment, partial
failure tolerance), the HTTP resilience client (retry with failure
classification) and the rate limiter / API-key quota manager, shallowly
embedded from the Python sources in `src/`.
-/

namespace BrazilProp

/-! ## Property records and deduplication (`coordinator.remove_duplicates`) -/

/-- A scraped property record, as far as deduplication is concerned:
`id` is `none` when the Python dict lacks an `id` key (or holds a falsy one),
`payload` stands for all remaining fields so that distinct records can be
told apart. -/
structure PropertyRecord where
  id : Option String
  payload : Nat
deriving DecidableEq, Repr

/-- Recursive worker for `remove_duplicates`: `seen` is the set of ids
already emitted (the Python `seen_ids`). A record with a fresh id is kept
and its id recorded; a record with an already seen id is dropped; a record
without id is kept unconditionally. -/
def removeDuplicatesAux (seen : List String) : List PropertyRecord → List PropertyRecord
  | [] => []
  | p :: ps =>
    match p.id with
    | none => p :: removeDuplicatesAux seen ps
    | some i =>
      if i ∈ seen then removeDuplicatesAux seen ps
      else p :: removeDuplicatesAux (i :: seen) ps

/-- Embedding of `ScraperCoordinator.remove_duplicates`
(`src/scrapers/coordinator.py`, lines 391-417). -/
def remove_duplicates (properties : List PropertyRecord) : List PropertyRecord :=
  removeDuplicatesAux [] properties

/-- The some-ids occurring in a list of records, in order. -/
def recordIds (l : List PropertyRecord) : List String :=
  l.filterMap (fun p => p.id)

theorem recordIds_cons_none {p : PropertyRecord} (hid : p.id = none)
    (l : List PropertyRecord) : recordIds (p :: l) = recordIds l := by
  simp [recordIds, hid]

theorem recordIds_cons_some {p : PropertyRecord} {i : String} (hid : p.id = some i)
    (l : List PropertyRecord) : recordIds (p :: l) = i :: recordIds l := by
  simp [recordIds, hid]

theorem removeDuplicatesAux_ids_nodup_disjoint (seen : List String) :
    ∀ l : List PropertyRecord,
      (recordIds (removeDuplicatesAux seen l)).Nodup ∧
      ∀ i ∈ recordIds (removeDuplicatesAux seen l), i ∉ seen := by
  intro l
  induction l generalizing seen with
  | nil => simp [removeDuplicatesAux, recordIds]
  | cons p ps ih =>
    cases hid : p.id with
    | none =>
      have h := ih seen
      have hrw : removeDuplicatesAux seen (p :: ps) =
          p :: removeDuplicatesAux seen ps := by
        simp [removeDuplicatesAux, hid]
      rw [hrw, recordIds_cons_none hid]
      exact h
    | some i =>
      by_cases hmem : i ∈ seen
      · have h := ih seen
        have hrw : removeDuplicatesAux seen (p :: ps) =
            removeDuplicatesAux seen ps := by
          simp [removeDuplicatesAux, hid, hmem]
        rw [hrw]
        exact h
      · have h := ih (i :: seen)
        have hrw : removeDuplicatesAux seen (p :: ps) =
            p :: removeDuplicatesAux (i :: seen) ps := by
          simp [removeDuplicatesAux, hid, hmem]
        rw [hrw, recordIds_cons_some hid]
        constructor
        · rw [List.nodup_cons]
          exact ⟨fun hcon => (h.2 i hcon) (List.mem_cons_self i seen), h.1⟩
        · intro j hj
          rcases List.mem_cons.mp hj with rfl | hj'
          · exact hmem
          · intro hcon
            exact (h.2 j hj') (List.mem_cons_of_mem _ hcon)

theorem removeDuplicatesAux_eq_self (seen : List String) :
    ∀ l : List PropertyRecord, (recordIds l).Nodup →
      (∀ i ∈ recordIds l, i ∉ seen) →
      removeDuplicatesAux seen l = l := by
  intro l
  induction l generalizing seen with
  | nil => intro _ _; simp [removeDuplicatesAux]
  | cons p ps ih =>
    intro hnd hdisj
    cases hid : p.id with
    | none =>
      rw [recordIds_cons_none hid] at hnd hdisj
      simp [removeDuplicatesAux, hid, ih seen hnd hdisj]
    | some i =>
      rw [recordIds_cons_some hid] at hnd hdisj
      rw [List.nodup_cons] at hnd
      have hseen : i ∉ seen := hdisj i (List.mem_cons_self _ _)
      have hrest : ∀ j ∈ recordIds ps, j ∉ i :: seen := by
        intro j hj hcon
        rcases List.mem_cons.mp hcon with rfl | hcon'
        · exact hnd.1 hj
        · exact hdisj j (List.mem_cons_of_mem _ hj) hcon'
      simp [removeDuplicatesAux, hid, hseen, ih (i :: seen) hnd.2 hrest]

theorem removeDuplicatesAux_filter_some (seen : List String) (i : String) :
    ∀ l : List PropertyRecord,
      (removeDuplicatesAux seen l).filter (fun p => p.id = some i) =
        if i ∈ seen then []
        else (l.filter (fun p => p.id = some i)).take 1 := by
  intro l
  induction l generalizing seen with
  | nil => simp [removeDuplicatesAux]
  | cons p ps ih =>
    cases hid : p.id with
    | none =>
      have h := ih seen
      by_cases hmem : i ∈ seen <;>
        simp_all [removeDuplicatesAux, hid, List.filter_cons]
    | some j =>
      by_cases hjseen : j ∈ seen
      · have h := ih seen
        by_cases hji : j = i
        · subst hji
          simp_all [removeDuplicatesAux, hid, List.filter_cons]
        · have hne : ¬ (p.id = some i) := by simp [hid, hji]
          by_cases hmem : i ∈ seen <;>
            simp_all [removeDuplicatesAux, hid, List.filter_cons]
      · by_cases hji : j = i
        · subst hji
          have h := ih (j :: seen)
          simp only [List.mem_cons, true_or, if_pos] at h
          simp [removeDuplicatesAux, hid, hjseen, List.filter_cons, h]
        · have hne : ¬ (p.id = some i) := by simp [hid, hji]
          have h := ih (j :: seen)
          by_cases hmem : i ∈ seen
          · have : i ∈ j :: seen := List.mem_cons_of_mem _ hmem
            simp_all [removeDuplicatesAux, hid, List.filter_cons]
          · have : ¬ i ∈ j :: seen := by
              simp only [List.mem_cons, not_or]
              exact ⟨fun hij => hji hij.symm, hmem⟩
            simp_all [removeDuplicatesAux, hid, List.filter_cons]

theorem removeDuplicatesAux_filter_none (seen : List String) :
    ∀ l : List PropertyRecord,
      (removeDuplicatesAux seen l).filter (fun p => p.id = none) =
        l.filter (fun p => p.id = none) := by
  intro l
  induction l generalizing seen with
  | nil => simp [removeDuplicatesAux]
  | cons p ps ih =>
    cases hid : p.id with
    | none => simp_all [removeDuplicatesAux, hid, List.filter_cons]
    | some j =>
      by_cases hjseen : j ∈ seen <;>
        simp_all [removeDuplicatesAux, hid, List.filter_cons]

/-- C3: `remove_duplicates` is idempotent; for each id it keeps exactly the
first occurrence of that id; records lacking an id pass through
unconditionally. -/
theorem remove_duplicates_idempotent_first_wins (l : List PropertyRecord) :
    remove_duplicates (remove_duplicates l) = remove_duplicates l ∧
    (∀ i : String,
      (remove_duplicates l).filter (fun p => p.id = some i) =
        (l.filter (fun p => p.id = some i)).take 1) ∧
    (remove_duplicates l).filter (fun p => p.id = none) =
      l.filter (fun p => p.id = none) := by
  refine ⟨?_, ?_, ?_⟩
  · have h := removeDuplicatesAux_ids_nodup_disjoint [] l
    exact removeDuplicatesAux_eq_self [] (removeDuplicatesAux [] l) h.1
      (by intro i _; simp)
  · intro i
    have h := removeDuplicatesAux_filter_some [] i l
    simpa using h
  · exact removeDuplicatesAux_filter_none [] l

/-! ## HTTP resilience client (`base_scraper._retry_request` / `make_request`)

The transport is modelled as a function from the attempt index to the
outcome of that attempt: a network timeout, a network connection error, or
a response with an HTTP status code. -/

/-- Outcome of one invocation of the underlying transport. -/
inductive Outcome where
  | timeout
  | connError
  | ok (status : Nat)
deriving DecidableEq, Repr

/-- The exceptions of the scraping layer: the two `requests` network
exceptions caught by the retry loop, plus the scraper exception classes
from `src/scrapers/exceptions.py`. -/
inductive ScrapeExc where
  | reqTimeout
  | reqConnError
  | httpError
  | rateLimitError
  | blockedError
  | timeoutError
  | connectionError
deriving DecidableEq, Repr

/-- Per-scraper statistics counters (`BaseScraper.stats`). -/
structure ScraperStats where
  requests_made : Nat
  errors_count : Nat
deriving DecidableEq, Repr

/-- One execution of the inner `_make_request` closure
(`base_scraper.py`, lines 173-190): increment `requests_made`, invoke the
transport, classify the response (429 → rate limited, 403 → blocked,
other ≥400 → HTTP error via `raise_for_status`). -/
def attemptOnce (f : Nat → Outcome) (i : Nat) (st : ScraperStats) :
    ScraperStats × Except ScrapeExc Nat :=
  let st' := { st with requests_made := st.requests_made + 1 }
  match f i with
  | .timeout => (st', .error .reqTimeout)
  | .connError => (st', .error .reqConnError)
  | .ok s =>
    if s = 429 then (st', .error .rateLimitError)
    else if s = 403 then (st', .error .blockedError)
    else if 400 ≤ s then (st', .error .httpError)
    else (st', .ok s)

/-- The retry loop of `_retry_request` (`base_scraper.py`, lines 119-153):
`remaining` attempts left, `i` the current attempt index, `tc` the running
`timeout_count`. `requests.Timeout` and `requests.ConnectionError` are
caught (each incrementing `errors_count`); any other exception propagates.
On exhaustion, `ScraperTimeoutError` is raised iff `timeout_count` equals
`max_retries`, otherwise `ScraperConnectionError`. -/
def retryGo (f : Nat → Outcome) (maxRetries : Nat) :
    Nat → Nat → Nat → ScraperStats → ScraperStats × Except ScrapeExc Nat
  | 0, _, tc, st =>
    (st, .error (if tc = maxRetries then .timeoutError else .connectionError))
  | remaining + 1, i, tc, st =>
    match attemptOnce f i st with
    | (st', .ok v) => (st', .ok v)
    | (st', .error .reqTimeout) =>
      retryGo f maxRetries remaining (i + 1) (tc + 1)
        { st' with errors_count := st'.errors_count + 1 }
    | (st', .error .reqConnError) =>
      retryGo f maxRetries remaining (i + 1) tc
        { st' with errors_count := st'.errors_count + 1 }
    | (st', .error e) => (st', .error e)

/-- Embedding of `BaseScraper._retry_request` applied to the
`_make_request` closure. -/
def retryRequest (f : Nat → Outcome) (maxRetries : Nat) (st : ScraperStats) :
    ScraperStats × Except ScrapeExc Nat :=
  retryGo f maxRetries maxRetries 0 0 st

/-- Embedding of `BaseScraper.make_request` (`base_scraper.py`,
lines 155-210): run the retry loop; every terminal failure increments
`errors_count` once more; scraper exceptions are re-raised, anything else
is wrapped into `ScraperConnectionError`. -/
def make_request (f : Nat → Outcome) (maxRetries : Nat) (st : ScraperStats) :
    ScraperStats × Except ScrapeExc Nat :=
  match retryRequest f maxRetries st with
  | (st', .ok v) => (st', .ok v)
  | (st', .error e) =>
    let st'' := { st' with errors_count := st'.errors_count + 1 }
    match e with
    | .timeoutError => (st'', .error .timeoutError)
    | .rateLimitError => (st'', .error .rateLimitError)
    | .blockedError => (st'', .error .blockedError)
    | .connectionError => (st'', .error .connectionError)
    | _ => (st'', .error .connectionError)

/-- A transport attempt that fails at the network level. -/
def attemptFails (f : Nat → Outcome) (i : Nat) : Prop :=
  f i = .timeout ∨ f i = .connError

/-- Number of timeouts among attempts `i, i+1, ..., i+r-1`. -/
def timeoutsIn (f : Nat → Outcome) (i r : Nat) : Nat :=
  (List.range' i r).countP (fun j => f j = .timeout)

theorem timeoutsIn_succ (f : Nat → Outcome) (i r : Nat) :
    timeoutsIn f i (r + 1) =
      (if f i = .timeout then 1 else 0) + timeoutsIn f (i + 1) r := by
  simp only [timeoutsIn, List.range'_succ, List.countP_cons]
  by_cases h : f i = .timeout <;> simp [h] <;> omega

theorem retryGo_all_fail (f : Nat → Outcome) (maxRetries : Nat) :
    ∀ r i tc st, (∀ j, i ≤ j → j < i + r → attemptFails f j) →
      retryGo f maxRetries r i tc st =
        ({ requests_made := st.requests_made + r,
           errors_count := st.errors_count + r },
         .error (if tc + timeoutsIn f i r = maxRetries
                 then .timeoutError else .connectionError)) := by
  intro r
  induction r with
  | zero =>
    intro i tc st _
    simp [retryGo, timeoutsIn]
  | succ n ih =>
    intro i tc st hfail
    have hi : attemptFails f i := hfail i (Nat.le_refl i) (by omega)
    have hrest : ∀ j, i + 1 ≤ j → j < (i + 1) + n → attemptFails f j := by
      intro j h1 h2
      exact hfail j (by omega) (by omega)
    rcases hi with hto | hce
    · have hstep : retryGo f maxRetries (n + 1) i tc st =
          retryGo f maxRetries n (i + 1) (tc + 1)
            { requests_made := st.requests_made + 1,
              errors_count := st.errors_count + 1 } := by
        simp [retryGo, attemptOnce, hto]
      rw [hstep, ih (i + 1) (tc + 1) _ hrest, timeoutsIn_succ, hto]
      have hone : (if (Outcome.timeout : Outcome) = Outcome.timeout
          then 1 else 0) = 1 := by simp
      rw [hone]
      simp only [Prod.mk.injEq, ScraperStats.mk.injEq]
      refine ⟨⟨by omega, by omega⟩, ?_⟩
      exact congrArg Except.error (if_congr (by omega) rfl rfl)
    · have hstep : retryGo f maxRetries (n + 1) i tc st =
          retryGo f maxRetries n (i + 1) tc
            { requests_made := st.requests_made + 1,
              errors_count := st.errors_count + 1 } := by
        simp [retryGo, attemptOnce, hce]
      rw [hstep, ih (i + 1) tc _ hrest, timeoutsIn_succ, hce]
      have hzero : (if (Outcome.connError : Outcome) = Outcome.timeout
          then 1 else 0) = 0 := by simp
      rw [hzero]
      simp only [Prod.mk.injEq, ScraperStats.mk.injEq]
      refine ⟨⟨by omega, by omega⟩, ?_⟩
      exact congrArg Except.error (if_congr (by omega) rfl rfl)

theorem timeoutsIn_eq_iff_all (f : Nat → Outcome) (r : Nat) :
    timeoutsIn f 0 r = r ↔ ∀ j < r, f j = .timeout := by
  constructor
  · intro h j hj
    rw [timeoutsIn] at h
    have hall := List.countP_eq_length.mp
      (by rw [List.length_range']; exact h)
    have hjmem : j ∈ List.range' 0 r :=
      List.mem_range'_1.mpr ⟨Nat.zero_le j, by omega⟩
    simpa using hall j hjmem
  · intro h
    rw [timeoutsIn]
    have hcount : List.countP (fun j => decide (f j = Outcome.timeout))
        (List.range' 0 r) = (List.range' 0 r).length :=
      List.countP_eq_length.mpr (by
        intro j hj
        have hjr := List.mem_range'_1.mp hj
        simp [h j (by omega)])
    exact hcount.trans (List.length_range' 0 1 r)

/-- C5: against a transport failing at the network level on every attempt,
`make_request` invokes the transport exactly `max_retries` times
(observable as `requests_made` increasing by exactly `max_retries`,
since `_make_request` increments it exactly once per transport
invocation), and then raises `ScraperTimeoutError` when every attempt
timed out and `ScraperConnectionError` otherwise. -/
theorem make_request_always_failing (f : Nat → Outcome) (maxRetries : Nat)
    (st : ScraperStats) (hpos : 0 < maxRetries)
    (hfail : ∀ j < maxRetries, attemptFails f j) :
    make_request f maxRetries st =
      ({ requests_made := st.requests_made + maxRetries,
         errors_count := st.errors_count + maxRetries + 1 },
       .error (if ∀ j < maxRetries, f j = .timeout
               then .timeoutError else .connectionError)) := by
  have hloop := retryGo_all_fail f maxRetries maxRetries 0 0 st
    (by intro j h1 h2; exact hfail j (by omega))
  rw [make_request, retryRequest, hloop]
  by_cases hall : ∀ j < maxRetries, f j = .timeout
  · have hcount : timeoutsIn f 0 maxRetries = maxRetries :=
      (timeoutsIn_eq_iff_all f maxRetries).mpr hall
    rw [if_pos hall]
    simp [hcount]
  · have hcount : timeoutsIn f 0 maxRetries ≠ maxRetries := by
      intro hcon
      exact hall ((timeoutsIn_eq_iff_all f maxRetries).mp hcon)
    rw [if_neg hall]
    simp [hcount]

/-- Witness for `make_request_always_failing`: three attempts, all
connection errors. -/
theorem make_request_always_failing_witness :
    (0 < 3 ∧ ∀ j < 3, attemptFails (fun _ => Outcome.connError) j) ∧
    make_request (fun _ => Outcome.connError) 3 ⟨0, 0⟩ =
      (⟨3, 4⟩, .error .connectionError) := by
  have h := make_request_always_failing (fun _ => Outcome.connError) 3 ⟨0, 0⟩
    (by decide) (by intro j _; exact Or.inr rfl)
  refine ⟨⟨by decide, fun j _ => Or.inr rfl⟩, ?_⟩
  rw [h]
  have hnot : ¬ (∀ j < 3, (fun _ => Outcome.connError) j = Outcome.timeout) := by
    intro hcon
    exact absurd (hcon 0 (by omega)) (by decide)
  rw [if_neg hnot]

/-- C2 counterexample: with `max_retries = 3` and a transport that times
out on the first attempt but hits connection errors on the remaining two,
an attempt did time out, yet the final error is `ScraperConnectionError`,
not `ScraperTimeoutError` (the code raises Timeout only when
`timeout_count == max_retries`). -/
theorem make_request_any_timeout_counterexample :
    (fun i => if i = 0 then Outcome.timeout else Outcome.connError) 0 =
      Outcome.timeout ∧
    (make_request (fun i => if i = 0 then Outcome.timeout else Outcome.connError)
        3 ⟨0, 0⟩).2 = .error .connectionError ∧
    Except.error (ε := ScrapeExc) (α := Nat) .connectionError ≠
      .error .timeoutError := by
  refine ⟨rfl, ?_, by simp⟩
  rfl

/-- C2 amended: when all retries are exhausted on network-level failures,
the final error is `ScraperTimeoutError` precisely when every attempt
timed out; if any attempt failed with a connection error instead, the
final error is the generic `ScraperConnectionError`. -/
theorem make_request_timeout_iff_all_timeout (f : Nat → Outcome)
    (maxRetries : Nat) (st : ScraperStats) (hpos : 0 < maxRetries)
    (hfail : ∀ j < maxRetries, attemptFails f j) :
    ((make_request f maxRetries st).2 = .error .timeoutError ↔
      ∀ j < maxRetries, f j = .timeout) ∧
    ((∃ j < maxRetries, f j ≠ .timeout) →
      (make_request f maxRetries st).2 = .error .connectionError) := by
  have hloop := retryGo_all_fail f maxRetries maxRetries 0 0 st
    (by intro j h1 h2; exact hfail j (by omega))
  constructor
  · constructor
    · intro hres
      by_contra hcon
      have hcount : timeoutsIn f 0 maxRetries ≠ maxRetries := by
        intro hc
        exact hcon ((timeoutsIn_eq_iff_all f maxRetries).mp hc)
      rw [make_request, retryRequest, hloop] at hres
      simp [hcount] at hres
    · intro hall
      have hcount : timeoutsIn f 0 maxRetries = maxRetries :=
        (timeoutsIn_eq_iff_all f maxRetries).mpr hall
      rw [make_request, retryRequest, hloop]
      simp [hcount]
  · rintro ⟨j, hj, hne⟩
    have hcount : timeoutsIn f 0 maxRetries ≠ maxRetries := by
      intro hc
      exact hne ((timeoutsIn_eq_iff_all f maxRetries).mp hc j hj)
    rw [make_request, retryRequest, hloop]
    simp [hcount]

/-- Witness for `make_request_timeout_iff_all_timeout`: all three attempts
time out, the final error is Timeout. -/
theorem make_request_timeout_iff_all_timeout_witness :
    (make_request (fun _ => Outcome.timeout) 3 ⟨0, 0⟩).2 =
      .error .timeoutError := by
  exact ((make_request_timeout_iff_all_timeout (fun _ => Outcome.timeout) 3
    ⟨0, 0⟩ (by decide) (fun j _ => Or.inl rfl)).1).mpr (fun j _ => rfl)

/-! ## Rate limiting (`src/security/rate_limiting.py`)

Timestamps are seconds as integers; `now` stands for `datetime.utcnow()`.
The window is one hour = 3600 seconds. -/

/-- The sliding-window length in seconds. -/
def windowSecs : Int := 3600

/-- State of the in-memory `RateLimiter`. `requests` maps the
`"ip:endpoint"` key to its recorded timestamps (the `defaultdict(list)`),
`endpointLimits` holds per-endpoint overrides, `defaultLimit` the parsed
default quota, `exemptIps` the exemption allow-list. -/
structure RateLimiter where
  requests : String → List Int
  endpointLimits : String → Option Nat
  defaultLimit : Nat
  exemptIps : List String

/-- `str.split('/')` over the character list of the string. -/
def splitSlashAux : List Char → List Char → List (List Char)
  | [], acc => [acc.reverse]
  | c :: cs, acc =>
    if c = '/' then acc.reverse :: splitSlashAux cs []
    else splitSlashAux cs (c :: acc)

/-- Pieces of a quota string around `'/'` separators. -/
def splitSlash (s : String) : List (List Char) := splitSlashAux s.data []

/-- `int(...)` on a numeral: `some n` when the characters are a non-empty
digit string, `none` otherwise (Python would raise `ValueError`). -/
def digitsValAux : List Char → Nat → Option Nat
  | [], acc => some acc
  | c :: cs, acc =>
    if '0' ≤ c ∧ c ≤ '9' then
      digitsValAux cs (acc * 10 + (c.toNat - '0'.toNat))
    else none

/-- Parse a decimal numeral from characters. -/
def parseNat? : List Char → Option Nat
  | [] => none
  | cs => digitsValAux cs 0

namespace RateLimiter

/-- Embedding of `RateLimiter._parse_limit` (lines 51-68): a string
`"N/period"` is normalized to a per-hour count. -/
def parse_limit (limit_str : String) : Nat :=
  match splitSlash limit_str with
  | [r] => (parseNat? r).getD 0
  | r :: period :: _ =>
    let rate := (parseNat? r).getD 0
    if "sec".data.isPrefixOf period then rate * 3600
    else if "min".data.isPrefixOf period then rate * 60
    else if "hour".data.isPrefixOf period then rate
    else if "day".data.isPrefixOf period then rate / 24
    else rate
  | [] => 0

/-- `RateLimiter._get_key`. -/
def getKey (ip endpoint : String) : String := ip ++ ":" ++ endpoint

/-- `RateLimiter._clean_old_requests`: drop timestamps not strictly newer
than `now - 1 hour` for one key. -/
def cleanOldRequests (now : Int) (key : String) (rl : RateLimiter) :
    RateLimiter :=
  { rl with requests := fun k =>
      if k = key then (rl.requests key).filter (fun t => now - windowSecs < t)
      else rl.requests k }

/-- `RateLimiter.is_exempt`. -/
def is_exempt (ip : String) (rl : RateLimiter) : Bool := ip ∈ rl.exemptIps

/-- `RateLimiter.get_endpoint_limit`. -/
def get_endpoint_limit (endpoint : String) (rl : RateLimiter) : Nat :=
  (rl.endpointLimits endpoint).getD rl.defaultLimit

/-- `RateLimiter._get_current_usage`: prune, then count. Returns the
mutated limiter together with the count. -/
def getCurrentUsage (now : Int) (ip endpoint : String) (rl : RateLimiter) :
    RateLimiter × Nat :=
  let rl' := cleanOldRequests now (getKey ip endpoint) rl
  (rl', (rl'.requests (getKey ip endpoint)).length)

/-- `RateLimiter.is_allowed` (lines 74-82). -/
def is_allowed (now : Int) (ip endpoint : String) (rl : RateLimiter) :
    RateLimiter × Bool :=
  if is_exempt ip rl then (rl, true)
  else
    let (rl', usage) := getCurrentUsage now ip endpoint rl
    (rl', usage < get_endpoint_limit endpoint rl')

/-- `RateLimiter.record_request` (lines 84-93): append the timestamp, then
prune the key's window. -/
def record_request (now ts : Int) (ip endpoint : String) (rl : RateLimiter) :
    RateLimiter :=
  let key := getKey ip endpoint
  let rl' := { rl with requests := fun k =>
      if k = key then rl.requests key ++ [ts] else rl.requests k }
  cleanOldRequests now key rl'

/-- `RateLimiter.get_remaining_requests` (lines 113-117). -/
def get_remaining_requests (now : Int) (ip endpoint : String)
    (rl : RateLimiter) : RateLimiter × Nat :=
  let (rl', current) := getCurrentUsage now ip endpoint rl
  (rl', get_endpoint_limit endpoint rl' - current)

/-- `RateLimiter.get_reset_time` (lines 119-129): the minimum of the RAW
stored list (no pruning) plus one hour; `now` when the list is empty. -/
def get_reset_time (now : Int) (ip endpoint : String) (rl : RateLimiter) :
    Int :=
  match rl.requests (getKey ip endpoint) with
  | [] => now
  | t :: ts => ts.foldl min t + windowSecs

end RateLimiter

/-- What the spec says `getResetTime` does: the oldest timestamp SURVIVING
the one-hour pruning, plus one hour; the current time when none survives.
Modelled from the spec sentence "reset = oldest surviving timestamp +
1 hour" for comparison with the code's `get_reset_time`. -/
def resetTimeSpec (now : Int) (ip endpoint : String) (rl : RateLimiter) :
    Int :=
  match (rl.requests (RateLimiter.getKey ip endpoint)).filter
      (fun t => now - windowSecs < t) with
  | [] => now
  | t :: ts => ts.foldl min t + windowSecs

/-- Static data of one API key (`ApiKeyRecord`). -/
structure KeyInfo where
  rate_limit : Option String
  permissions : List String

/-- State of `APIKeyManager`: configured keys, per-(key, endpoint) usage
counters and usage timestamps. -/
structure APIKeyManager where
  api_keys : String → Option KeyInfo
  usage : String → String → Nat
  usage_timestamps : String → String → List Int

namespace APIKeyManager

/-- Embedding of `APIKeyManager._parse_limit` (lines 219-228): the period
suffix is IGNORED — the numerator is returned as is. -/
def parse_limit (limit_str : String) : Nat :=
  match splitSlash limit_str with
  | [r] => (parseNat? r).getD 0
  | r :: _ :: _ => (parseNat? r).getD 0
  | [] => 0

/-- `APIKeyManager.is_valid_key`. -/
def is_valid_key (k : String) (akm : APIKeyManager) : Bool :=
  (akm.api_keys k).isSome

/-- `APIKeyManager.get_rate_limit` (lines 176-184). -/
def get_rate_limit (k : String) (akm : APIKeyManager) : Nat :=
  match akm.api_keys k with
  | none => 100
  | some info => parse_limit (info.rate_limit.getD "100/hour")

/-- `APIKeyManager._clean_old_usage`. -/
def cleanOldUsage (now : Int) (k endpoint : String) (akm : APIKeyManager) :
    APIKeyManager :=
  { akm with usage_timestamps := fun k' ep' =>
      if k' = k ∧ ep' = endpoint then
        (akm.usage_timestamps k endpoint).filter (fun t => now - windowSecs < t)
      else akm.usage_timestamps k' ep' }

/-- `APIKeyManager.record_usage` (lines 196-205). -/
def record_usage (now ts : Int) (k endpoint : String) (akm : APIKeyManager) :
    APIKeyManager :=
  let akm' := { akm with
    usage := fun k' ep' =>
      if k' = k ∧ ep' = endpoint then akm.usage k endpoint + 1
      else akm.usage k' ep',
    usage_timestamps := fun k' ep' =>
      if k' = k ∧ ep' = endpoint then akm.usage_timestamps k endpoint ++ [ts]
      else akm.usage_timestamps k' ep' }
  cleanOldUsage now k endpoint akm'

/-- `APIKeyManager.get_usage` (lines 207-210): prune, then count. -/
def get_usage (now : Int) (k endpoint : String) (akm : APIKeyManager) :
    APIKeyManager × Nat :=
  let akm' := cleanOldUsage now k endpoint akm
  (akm', (akm'.usage_timestamps k endpoint).length)

/-- `APIKeyManager.is_rate_limited` (lines 212-217). -/
def is_rate_limited (now : Int) (k endpoint : String) (akm : APIKeyManager) :
    APIKeyManager × Bool :=
  let (akm', usage) := get_usage now k endpoint akm
  (akm', get_rate_limit k akm' ≤ usage)

end APIKeyManager

/-- The API-key branch of `rate_limit_decorator` (lines 293-296 and
307-309): check `is_rate_limited`, raise on exhaustion (`none`), otherwise
record usage and compute the rate-limit headers from the key's own
quota. -/
def apiKeyQuotaPath (now : Int) (k endpoint : String)
    (rl : RateLimiter) (akm : APIKeyManager) :
    RateLimiter × APIKeyManager × Option (Nat × Nat) :=
  let checked := APIKeyManager.is_rate_limited now k endpoint akm
  if checked.2 then (rl, checked.1, none)
  else
    let akm2 := APIKeyManager.record_usage now now k endpoint checked.1
    let limit := APIKeyManager.get_rate_limit k akm2
    let counted := APIKeyManager.get_usage now k endpoint akm2
    (rl, counted.1, some (limit, limit - counted.2))

/-- The IP branch of `rate_limit_decorator` (lines 297-301 and 311-312):
check `is_allowed`, raise on exhaustion (`none`), otherwise record the
request and compute the headers from the endpoint's IP quota. -/
def ipQuotaPath (now : Int) (clientIp endpoint : String)
    (rl : RateLimiter) (akm : APIKeyManager) :
    RateLimiter × APIKeyManager × Option (Nat × Nat) :=
  let checked := RateLimiter.is_allowed now clientIp endpoint rl
  if checked.2 then
    let rl2 := RateLimiter.record_request now now clientIp endpoint checked.1
    let limit := RateLimiter.get_endpoint_limit endpoint rl2
    let counted := RateLimiter.get_remaining_requests now clientIp endpoint rl2
    (counted.1, akm, some (limit, counted.2))
  else (checked.1, akm, none)

/-- Result of the admission phase of `rate_limit_decorator`
(lines 281-321): `none` means `RateLimitExceeded` was raised;
`some (limit, remaining)` means the wrapped handler ran and these
rate-limit headers were attached. A presented key that is valid routes
the request through the key quota; anything else through the IP quota. -/
def rateLimitDecorator (now : Int) (clientIp : String)
    (apiKey : Option String) (endpoint : String)
    (rl : RateLimiter) (akm : APIKeyManager) :
    RateLimiter × APIKeyManager × Option (Nat × Nat) :=
  match apiKey with
  | some k =>
    if APIKeyManager.is_valid_key k akm then apiKeyQuotaPath now k endpoint rl akm
    else ipQuotaPath now clientIp endpoint rl akm
  | none => ipQuotaPath now clientIp endpoint rl akm

/-! ## Rate limiting: theorems -/

theorem foldl_min_mem (ts : List Int) : ∀ t : Int, ts.foldl min t ∈ t :: ts := by
  induction ts with
  | nil => intro t; simp
  | cons a ts ih =>
    intro t
    rw [List.foldl_cons]
    rcases List.mem_cons.mp (ih (min t a)) with h | h
    · rw [h]
      rcases min_choice t a with hc | hc <;> rw [hc]
      · exact List.mem_cons_self _ _
      · exact List.mem_cons_of_mem _ (List.mem_cons_self _ _)
    · exact List.mem_cons_of_mem _ (List.mem_cons_of_mem _ h)

theorem foldl_min_le (ts : List Int) :
    ∀ t x, x ∈ t :: ts → ts.foldl min t ≤ x := by
  induction ts with
  | nil =>
    intro t x hx
    rw [List.mem_singleton] at hx
    simp [hx]
  | cons a ts ih =>
    intro t x hx
    rw [List.foldl_cons]
    rcases List.mem_cons.mp hx with rfl | hx'
    · exact le_trans (ih (min x a) (min x a) (List.mem_cons_self _ _))
        (min_le_left x a)
    rcases List.mem_cons.mp hx' with rfl | hx''
    · exact le_trans (ih (min t x) (min t x) (List.mem_cons_self _ _))
        (min_le_right t x)
    · exact ih (min t a) x (List.mem_cons_of_mem _ hx'')

/-- C9 counterexample: `APIKeyManager._parse_limit` does NOT normalize
periods: `"10/min"` yields `10`, not the per-hour count `600` the claim
requires. -/
theorem akm_parse_limit_counterexample :
    APIKeyManager.parse_limit "10/min" = 10 ∧ (10 : Nat) ≠ 600 := by
  exact ⟨by decide, by decide⟩

/-- C9 amended: for a quota string `"N/period"`, the IP rate limiter
normalizes to a per-hour count (`sec` × 3600, `min` × 60, `hour`
unchanged, `day` divided by 24, rounding down), while the API key
manager ignores the period and returns the numerator unchanged. -/
theorem parse_limit_normalization (s : String) (r p : List Char) (n : Nat)
    (hsplit : splitSlash s = [r, p]) (hr : parseNat? r = some n) :
    ("sec".data.isPrefixOf p = true → RateLimiter.parse_limit s = n * 3600) ∧
    ("sec".data.isPrefixOf p = false → "min".data.isPrefixOf p = true →
      RateLimiter.parse_limit s = n * 60) ∧
    ("sec".data.isPrefixOf p = false → "min".data.isPrefixOf p = false →
      "hour".data.isPrefixOf p = true → RateLimiter.parse_limit s = n) ∧
    ("sec".data.isPrefixOf p = false → "min".data.isPrefixOf p = false →
      "hour".data.isPrefixOf p = false → "day".data.isPrefixOf p = true →
      RateLimiter.parse_limit s = n / 24) ∧
    APIKeyManager.parse_limit s = n := by
  refine ⟨?_, ?_, ?_, ?_, ?_⟩
  · intro h1
    simp [RateLimiter.parse_limit, hsplit, hr, h1]
  · intro h1 h2
    simp [RateLimiter.parse_limit, hsplit, hr, h1, h2]
  · intro h1 h2 h3
    simp [RateLimiter.parse_limit, hsplit, hr, h1, h2, h3]
  · intro h1 h2 h3 h4
    simp [RateLimiter.parse_limit, hsplit, hr, h1, h2, h3, h4]
  · simp [APIKeyManager.parse_limit, hsplit, hr]

/-- Witness for `parse_limit_normalization` at the quota string
`"2/min"`. -/
theorem parse_limit_normalization_witness :
    (splitSlash "2/min" = [['2'], ['m', 'i', 'n']] ∧
      parseNat? ['2'] = some 2) ∧
    RateLimiter.parse_limit "2/min" = 120 ∧
    APIKeyManager.parse_limit "2/min" = 2 := by
  have h := parse_limit_normalization "2/min" ['2'] ['m', 'i', 'n'] 2
    (by decide) (by decide)
  exact ⟨⟨by decide, by decide⟩, h.2.1 (by decide) (by decide), h.2.2.2.2⟩

/-- A rate limiter holding one stale timestamp (recorded two hours before
`now = 10000`) that no call has pruned yet. -/
def rlStale : RateLimiter where
  requests := fun k => if k = "1.2.3.4:/api/v1/search" then [2800] else []
  endpointLimits := fun _ => none
  defaultLimit := 100
  exemptIps := ["127.0.0.1", "::1"]

/-- C8 counterexample: `get_reset_time` reads the RAW stored list without
pruning. With one stored timestamp 7200s old, the pruned window is empty,
so the claim demands `now = 10000`; the code returns `2800 + 3600 = 6400`
instead. -/
theorem get_reset_time_counterexample :
    RateLimiter.get_reset_time 10000 "1.2.3.4" "/api/v1/search" rlStale =
      6400 ∧
    resetTimeSpec 10000 "1.2.3.4" "/api/v1/search" rlStale = 10000 ∧
    (6400 : Int) ≠ 10000 := by
  refine ⟨rfl, ?_, by decide⟩
  rfl

/-- C8 amended: `get_reset_time` returns the minimum of the timestamps as
stored (without pruning) plus one hour — the current time when nothing is
stored — and this agrees with the spec's "oldest surviving timestamp +
1 hour" exactly when every stored timestamp is still within the trailing
hour. -/
theorem get_reset_time_unpruned (now : Int) (ip endpoint : String)
    (rl : RateLimiter) :
    (rl.requests (RateLimiter.getKey ip endpoint) = [] →
      RateLimiter.get_reset_time now ip endpoint rl = now) ∧
    (rl.requests (RateLimiter.getKey ip endpoint) ≠ [] →
      RateLimiter.get_reset_time now ip endpoint rl - windowSecs ∈
        rl.requests (RateLimiter.getKey ip endpoint) ∧
      ∀ t ∈ rl.requests (RateLimiter.getKey ip endpoint),
        RateLimiter.get_reset_time now ip endpoint rl - windowSecs ≤ t) ∧
    ((∀ t ∈ rl.requests (RateLimiter.getKey ip endpoint),
        now - windowSecs < t) →
      RateLimiter.get_reset_time now ip endpoint rl =
        resetTimeSpec now ip endpoint rl) := by
  refine ⟨?_, ?_, ?_⟩
  · intro hnil
    rw [RateLimiter.get_reset_time, hnil]
  · intro hne
    cases hl : rl.requests (RateLimiter.getKey ip endpoint) with
    | nil => exact absurd hl hne
    | cons t ts =>
      have hr : RateLimiter.get_reset_time now ip endpoint rl =
          ts.foldl min t + windowSecs := by
        rw [RateLimiter.get_reset_time, hl]
      rw [hr]
      constructor
      · have hmem := foldl_min_mem ts t
        have harith : ts.foldl min t + windowSecs - windowSecs =
            ts.foldl min t := by omega
        rw [harith]
        exact hmem
      · intro x hx
        have hle := foldl_min_le ts t x hx
        omega
  · intro hall
    rw [RateLimiter.get_reset_time, resetTimeSpec]
    have hfe : (rl.requests (RateLimiter.getKey ip endpoint)).filter
        (fun t => now - windowSecs < t) =
        rl.requests (RateLimiter.getKey ip endpoint) :=
      List.filter_eq_self.mpr (fun a ha => by
        simpa using hall a ha)
    rw [hfe]

/-- Witness for `get_reset_time_unpruned`: a limiter with fresh
timestamps, where the code's reset time equals the spec's. -/
theorem get_reset_time_unpruned_witness :
    (∀ t ∈ rlStale.requests (RateLimiter.getKey "5.5.5.5" "/x"),
      (10000 : Int) - windowSecs < t) ∧
    RateLimiter.get_reset_time 10000 "5.5.5.5" "/x" rlStale =
      resetTimeSpec 10000 "5.5.5.5" "/x" rlStale := by
  have h := (get_reset_time_unpruned 10000 "5.5.5.5" "/x" rlStale).2.2
  have hempty : rlStale.requests (RateLimiter.getKey "5.5.5.5" "/x") = [] :=
    rfl
  refine ⟨?_, ?_⟩
  · intro t ht
    rw [hempty] at ht
    cases ht
  · exact h (by intro t ht; rw [hempty] at ht; cases ht)

/-- C6: for a non-exempt client, (1) usage counts exactly the recorded
timestamps strictly newer than one hour before now, (2) remaining quota is
the limit minus that count (truncated at 0), so a timestamp recorded ≥1
hour ago is excluded, (3) `is_allowed` is true iff usage is strictly below
the endpoint's limit, (4) old timestamps are not among those counted,
(5) with a 10/hour limit and 10 in-window requests the next request is
denied, and (6) once ≥1 hour has elapsed from the first (oldest) of those
10 recorded timestamps, `is_allowed` is true again. -/
theorem sliding_window_admission (now : Int) (ip endpoint : String)
    (rl : RateLimiter) (hex : RateLimiter.is_exempt ip rl = false) :
    ((RateLimiter.getCurrentUsage now ip endpoint rl).2 =
      ((rl.requests (RateLimiter.getKey ip endpoint)).filter
        (fun t => now - windowSecs < t)).length) ∧
    ((RateLimiter.get_remaining_requests now ip endpoint rl).2 =
      RateLimiter.get_endpoint_limit endpoint rl -
        ((rl.requests (RateLimiter.getKey ip endpoint)).filter
          (fun t => now - windowSecs < t)).length) ∧
    ((RateLimiter.is_allowed now ip endpoint rl).2 = true ↔
      (RateLimiter.getCurrentUsage now ip endpoint rl).2 <
        RateLimiter.get_endpoint_limit endpoint rl) ∧
    (∀ t : Int, t ≤ now - windowSecs →
      t ∉ (rl.requests (RateLimiter.getKey ip endpoint)).filter
        (fun t => now - windowSecs < t)) ∧
    (RateLimiter.get_endpoint_limit endpoint rl = 10 →
      (rl.requests (RateLimiter.getKey ip endpoint)).length = 10 →
      (∀ t ∈ rl.requests (RateLimiter.getKey ip endpoint),
        now - windowSecs < t) →
      (RateLimiter.is_allowed now ip endpoint rl).2 = false) ∧
    (∀ now' t0 ts, rl.requests (RateLimiter.getKey ip endpoint) = t0 :: ts →
      ts.length = 9 → (∀ t ∈ ts, t0 ≤ t) →
      RateLimiter.get_endpoint_limit endpoint rl = 10 →
      t0 + windowSecs ≤ now' →
      (RateLimiter.is_allowed now' ip endpoint rl).2 = true) := by
  have husage : ∀ m : Int, (RateLimiter.getCurrentUsage m ip endpoint rl).2 =
      ((rl.requests (RateLimiter.getKey ip endpoint)).filter
        (fun t => m - windowSecs < t)).length := by
    intro m
    simp [RateLimiter.getCurrentUsage, RateLimiter.cleanOldRequests]
  have hlim : ∀ m : Int, RateLimiter.get_endpoint_limit endpoint
      (RateLimiter.cleanOldRequests m (RateLimiter.getKey ip endpoint) rl) =
      RateLimiter.get_endpoint_limit endpoint rl := by
    intro m
    rfl
  have hallow : ∀ m : Int, (RateLimiter.is_allowed m ip endpoint rl).2 =
      decide ((RateLimiter.getCurrentUsage m ip endpoint rl).2 <
        RateLimiter.get_endpoint_limit endpoint rl) := by
    intro m
    simp only [RateLimiter.is_allowed, hex, Bool.false_eq_true, if_false,
      RateLimiter.getCurrentUsage]
    rfl
  refine ⟨husage now, ?_, ?_, ?_, ?_, ?_⟩
  · simp only [RateLimiter.get_remaining_requests]
    rw [show (RateLimiter.getCurrentUsage now ip endpoint rl) =
      ((RateLimiter.getCurrentUsage now ip endpoint rl).1,
       (RateLimiter.getCurrentUsage now ip endpoint rl).2) from rfl]
    simp only []
    rw [husage now]
    rfl
  · rw [hallow now]
    simp
  · intro t ht hmem
    have := List.mem_filter.mp hmem
    have hlt : now - windowSecs < t := by simpa using this.2
    omega
  · intro hlimit hlen hfresh
    rw [hallow now]
    have hfe : (rl.requests (RateLimiter.getKey ip endpoint)).filter
        (fun t => now - windowSecs < t) =
        rl.requests (RateLimiter.getKey ip endpoint) :=
      List.filter_eq_self.mpr (fun a ha => by simpa using hfresh a ha)
    rw [husage now, hfe, hlen, hlimit]
    decide
  · intro now' t0 ts hl hts hmin hlimit hnow'
    rw [hallow now', husage now', hl, hlimit]
    have hdrop : (t0 :: ts).filter (fun t => now' - windowSecs < t) =
        ts.filter (fun t => now' - windowSecs < t) := by
      rw [List.filter_cons]
      have : ¬ (now' - windowSecs < t0) := by omega
      simp [this]
    rw [hdrop]
    have hlen : (ts.filter (fun t => now' - windowSecs < t)).length ≤
        ts.length := List.length_filter_le _ _
    rw [hts] at hlen
    simp only [decide_eq_true_eq]
    omega

/-- A concrete non-exempt rate limiter state: three recorded timestamps
for `9.9.9.9` on the search endpoint, one of them stale. -/
def rlDemo : RateLimiter where
  requests := fun k =>
    if k = "9.9.9.9:/api/v1/search" then [7000, 8000, 3000] else []
  endpointLimits := fun ep => if ep = "/api/v1/search" then some 10 else none
  defaultLimit := 100
  exemptIps := ["127.0.0.1", "::1"]

/-- Witness for `sliding_window_admission`: at `now = 10000` the stale
timestamp `3000` is excluded, usage is 2 and the request is admitted. -/
theorem sliding_window_admission_witness :
    RateLimiter.is_exempt "9.9.9.9" rlDemo = false ∧
    (RateLimiter.getCurrentUsage 10000 "9.9.9.9" "/api/v1/search" rlDemo).2 =
      2 ∧
    (RateLimiter.is_allowed 10000 "9.9.9.9" "/api/v1/search" rlDemo).2 =
      true := by
  have h := sliding_window_admission 10000 "9.9.9.9" "/api/v1/search" rlDemo
    (by decide)
  refine ⟨by decide, ?_, ?_⟩
  · rw [h.1]
    decide
  · rw [h.2.2.1]
    rw [h.1]
    decide

theorem filter_idem {α : Type} (p : α → Bool) (l : List α) :
    (l.filter p).filter p = l.filter p :=
  List.filter_eq_self.mpr (fun a ha => (List.mem_filter.mp ha).2)

theorem filter_window_append_now (l : List Int) (now : Int) :
    (l ++ [now]).filter (fun t => now - windowSecs < t) =
      l.filter (fun t => now - windowSecs < t) ++ [now] := by
  rw [List.filter_append]
  have hnow : now - windowSecs < now := by
    have : (0 : Int) < windowSecs := by decide
    omega
  simp [hnow]

theorem cleanOldRequests_other (now : Int) (key key' : String)
    (rl : RateLimiter) (h : key' ≠ key) :
    (RateLimiter.cleanOldRequests now key rl).requests key' =
      rl.requests key' := by
  simp [RateLimiter.cleanOldRequests, h]

theorem is_allowed_fst_other (now : Int) (ip endpoint key' : String)
    (rl : RateLimiter) (h : key' ≠ RateLimiter.getKey ip endpoint) :
    (RateLimiter.is_allowed now ip endpoint rl).1.requests key' =
      rl.requests key' := by
  rw [RateLimiter.is_allowed]
  by_cases hex : RateLimiter.is_exempt ip rl
  · simp [hex]
  · simp only [hex, Bool.false_eq_true, if_false, RateLimiter.getCurrentUsage]
    exact cleanOldRequests_other now _ key' rl h

theorem is_allowed_fst_own (now : Int) (ip endpoint : String)
    (rl : RateLimiter) :
    ((RateLimiter.is_allowed now ip endpoint rl).1.requests
        (RateLimiter.getKey ip endpoint)).filter
        (fun t => now - windowSecs < t) =
      (rl.requests (RateLimiter.getKey ip endpoint)).filter
        (fun t => now - windowSecs < t) := by
  rw [RateLimiter.is_allowed]
  by_cases hex : RateLimiter.is_exempt ip rl
  · simp [hex]
  · simp only [hex, Bool.false_eq_true, if_false, RateLimiter.getCurrentUsage,
      RateLimiter.cleanOldRequests, if_pos rfl]
    exact filter_idem _ _

theorem ipQuotaPath_akm_unchanged (now : Int) (ip endpoint : String)
    (rl : RateLimiter) (akm : APIKeyManager) :
    (ipQuotaPath now ip endpoint rl akm).2.1 = akm := by
  simp only [ipQuotaPath]
  split <;> rfl

theorem ipQuotaPath_frame (now : Int) (ip endpoint key' : String)
    (rl : RateLimiter) (akm : APIKeyManager)
    (h : key' ≠ RateLimiter.getKey ip endpoint) :
    (ipQuotaPath now ip endpoint rl akm).1.requests key' =
      rl.requests key' := by
  simp only [ipQuotaPath]
  split
  · simp only [RateLimiter.get_remaining_requests, RateLimiter.getCurrentUsage,
      RateLimiter.record_request]
    rw [cleanOldRequests_other now _ key' _ h,
      cleanOldRequests_other now _ key' _ h]
    simp only [if_neg h]
    exact is_allowed_fst_other now ip endpoint key' rl h
  · exact is_allowed_fst_other now ip endpoint key' rl h

theorem ipQuotaPath_charged (now : Int) (ip endpoint : String)
    (rl : RateLimiter) (akm : APIKeyManager)
    (h : (ipQuotaPath now ip endpoint rl akm).2.2 ≠ none) :
    (ipQuotaPath now ip endpoint rl akm).1.requests
        (RateLimiter.getKey ip endpoint) =
      (rl.requests (RateLimiter.getKey ip endpoint)).filter
        (fun t => now - windowSecs < t) ++ [now] := by
  rw [ipQuotaPath] at h ⊢
  split at h
  · next hallowed =>
    simp only [if_pos hallowed]
    simp only [RateLimiter.get_remaining_requests, RateLimiter.getCurrentUsage,
      RateLimiter.record_request, RateLimiter.cleanOldRequests,
      eq_self_iff_true, if_true]
    rw [filter_window_append_now, filter_window_append_now, filter_idem]
    rw [is_allowed_fst_own now ip endpoint rl]
  · exact absurd rfl h

theorem cleanOldUsage_other (now : Int) (k endpoint k' ep' : String)
    (akm : APIKeyManager) (h : ¬(k' = k ∧ ep' = endpoint)) :
    (APIKeyManager.cleanOldUsage now k endpoint akm).usage_timestamps k' ep' =
      akm.usage_timestamps k' ep' := by
  simp [APIKeyManager.cleanOldUsage, h]

theorem apiKeyQuotaPath_rl_unchanged (now : Int) (k endpoint : String)
    (rl : RateLimiter) (akm : APIKeyManager) :
    (apiKeyQuotaPath now k endpoint rl akm).1 = rl := by
  simp only [apiKeyQuotaPath]
  split <;> rfl

theorem apiKeyQuotaPath_frame (now : Int) (k endpoint k' ep' : String)
    (rl : RateLimiter) (akm : APIKeyManager)
    (h : ¬(k' = k ∧ ep' = endpoint)) :
    (apiKeyQuotaPath now k endpoint rl akm).2.1.usage_timestamps k' ep' =
      akm.usage_timestamps k' ep' ∧
    (apiKeyQuotaPath now k endpoint rl akm).2.1.usage k' ep' =
      akm.usage k' ep' := by
  simp only [apiKeyQuotaPath]
  split
  · constructor
    · simp only [APIKeyManager.is_rate_limited, APIKeyManager.get_usage]
      exact cleanOldUsage_other now k endpoint k' ep' akm h
    · rfl
  · constructor
    · simp [APIKeyManager.get_usage, APIKeyManager.record_usage,
        APIKeyManager.cleanOldUsage, APIKeyManager.is_rate_limited, h]
    · simp [APIKeyManager.get_usage, APIKeyManager.record_usage,
        APIKeyManager.cleanOldUsage, APIKeyManager.is_rate_limited, h]

theorem apiKeyQuotaPath_charged (now : Int) (k endpoint : String)
    (rl : RateLimiter) (akm : APIKeyManager)
    (h : (apiKeyQuotaPath now k endpoint rl akm).2.2 ≠ none) :
    (apiKeyQuotaPath now k endpoint rl akm).2.1.usage k endpoint =
      akm.usage k endpoint + 1 ∧
    (apiKeyQuotaPath now k endpoint rl akm).2.1.usage_timestamps k endpoint =
      (akm.usage_timestamps k endpoint).filter
        (fun t => now - windowSecs < t) ++ [now] := by
  rw [apiKeyQuotaPath] at h ⊢
  split at h
  · exact absurd rfl h
  · next hnotlim =>
    simp only [if_neg hnotlim]
    constructor
    · simp only [APIKeyManager.get_usage, APIKeyManager.record_usage,
        APIKeyManager.cleanOldUsage, APIKeyManager.is_rate_limited,
        eq_self_iff_true, and_self, if_true]
    · simp only [APIKeyManager.get_usage, APIKeyManager.record_usage,
        APIKeyManager.cleanOldUsage, APIKeyManager.is_rate_limited,
        eq_self_iff_true, and_self, if_true]
      rw [filter_window_append_now, filter_window_append_now, filter_idem,
        filter_idem]

/-- Whether the request presents a syntactically extracted key that the
manager recognizes — the condition `api_key and is_valid_key(api_key)` of
the decorator. -/
def presentsValidKey (apiKey : Option String) (akm : APIKeyManager) : Bool :=
  match apiKey with
  | some k => APIKeyManager.is_valid_key k akm
  | none => false

/-- C7: exactly one quota path governs a request. With a valid API key the
IP limiter's state is untouched and only the key's own (key, endpoint)
usage cell is checked/charged (incremented by one when admitted); without
a valid key the key manager's state is untouched and only the client's
own `ip:endpoint` window is checked/charged (the timestamp appended when
admitted). -/
theorem quota_path_exclusivity (now : Int) (ip : String)
    (apiKey : Option String) (endpoint : String)
    (rl : RateLimiter) (akm : APIKeyManager) :
    (∀ k, apiKey = some k → APIKeyManager.is_valid_key k akm = true →
      (rateLimitDecorator now ip apiKey endpoint rl akm).1 = rl ∧
      (∀ k' ep', ¬(k' = k ∧ ep' = endpoint) →
        (rateLimitDecorator now ip apiKey endpoint rl akm).2.1.usage_timestamps
            k' ep' = akm.usage_timestamps k' ep' ∧
        (rateLimitDecorator now ip apiKey endpoint rl akm).2.1.usage k' ep' =
          akm.usage k' ep') ∧
      ((rateLimitDecorator now ip apiKey endpoint rl akm).2.2 ≠ none →
        (rateLimitDecorator now ip apiKey endpoint rl akm).2.1.usage k
            endpoint = akm.usage k endpoint + 1 ∧
        (rateLimitDecorator now ip apiKey endpoint rl akm).2.1.usage_timestamps
            k endpoint =
          (akm.usage_timestamps k endpoint).filter
            (fun t => now - windowSecs < t) ++ [now])) ∧
    (presentsValidKey apiKey akm = false →
      (rateLimitDecorator now ip apiKey endpoint rl akm).2.1 = akm ∧
      (∀ key', key' ≠ RateLimiter.getKey ip endpoint →
        (rateLimitDecorator now ip apiKey endpoint rl akm).1.requests key' =
          rl.requests key') ∧
      ((rateLimitDecorator now ip apiKey endpoint rl akm).2.2 ≠ none →
        (rateLimitDecorator now ip apiKey endpoint rl akm).1.requests
            (RateLimiter.getKey ip endpoint) =
          (rl.requests (RateLimiter.getKey ip endpoint)).filter
            (fun t => now - windowSecs < t) ++ [now])) := by
  constructor
  · intro k hk hv
    subst hk
    have hred : rateLimitDecorator now ip (some k) endpoint rl akm =
        apiKeyQuotaPath now k endpoint rl akm := by
      simp [rateLimitDecorator, hv]
    rw [hred]
    exact ⟨apiKeyQuotaPath_rl_unchanged now k endpoint rl akm,
      fun k' ep' h => apiKeyQuotaPath_frame now k endpoint k' ep' rl akm h,
      fun h => apiKeyQuotaPath_charged now k endpoint rl akm h⟩
  · intro hnv
    have hred : rateLimitDecorator now ip apiKey endpoint rl akm =
        ipQuotaPath now ip endpoint rl akm := by
      cases apiKey with
      | none => rfl
      | some k =>
        simp only [presentsValidKey] at hnv
        simp [rateLimitDecorator, hnv]
    rw [hred]
    exact ⟨ipQuotaPath_akm_unchanged now ip endpoint rl akm,
      fun key' h => ipQuotaPath_frame now ip endpoint key' rl akm h,
      fun h => ipQuotaPath_charged now ip endpoint rl akm h⟩

/-- A concrete API key manager recognizing one key with no prior usage. -/
def akmDemo : APIKeyManager where
  api_keys := fun k =>
    if k = "key-abc" then
      some { rate_limit := some "100/hour", permissions := ["search"] }
    else none
  usage := fun _ _ => 0
  usage_timestamps := fun _ _ => []

/-- Witness for `quota_path_exclusivity`, on both branches: a request with
the valid key `key-abc` leaves the IP limiter untouched, and a keyless
request leaves the key manager untouched. -/
theorem quota_path_exclusivity_witness :
    (APIKeyManager.is_valid_key "key-abc" akmDemo = true ∧
      (rateLimitDecorator 10000 "9.9.9.9" (some "key-abc") "/api/v1/search"
        rlDemo akmDemo).1 = rlDemo) ∧
    (presentsValidKey none akmDemo = false ∧
      (rateLimitDecorator 10000 "9.9.9.9" none "/api/v1/search"
        rlDemo akmDemo).2.1 = akmDemo) := by
  have h1 := (quota_path_exclusivity 10000 "9.9.9.9" (some "key-abc")
    "/api/v1/search" rlDemo akmDemo).1 "key-abc" rfl (by decide)
  have h2 := (quota_path_exclusivity 10000 "9.9.9.9" none
    "/api/v1/search" rlDemo akmDemo).2 rfl
  exact ⟨⟨by decide, h1.1⟩, ⟨rfl, h2.1⟩⟩

/-! ## Acquisition coordinator (`coordinator.scrape_properties`)

Collaborators (cache, database, adapters) are modelled as oracles:
each is an `Except Unit _` value describing what that call would return
or the exception it would raise. -/

/-- Coordinator-level cumulative counters (`ScraperCoordinator.stats`). -/
structure CoordStats where
  total_requests : Nat
  total_properties : Nat
  total_errors : Nat
deriving DecidableEq, Repr

/-- A Python value found in the search-params dict: a string or something
else (modelled by an integer), on which `.strip()` raises. -/
inductive PyVal where
  | str (s : String)
  | int (n : Int)
deriving DecidableEq, Repr

/-- Truthiness of `v.strip()`: for a string, true iff some character is
not whitespace; for a non-string, `AttributeError` is raised. -/
def stripTruthy : PyVal → Except Unit Bool
  | .str s => .ok (!(s.data.all (fun c => c.isWhitespace)))
  | .int _ => .error ()

/-- The search parameters, restricted to the keys
`validate_search_params` inspects. -/
structure SearchParams where
  city : Option PyVal
  state : Option PyVal
deriving DecidableEq, Repr

/-- Embedding of `ScraperCoordinator.validate_search_params`
(`coordinator.py`, lines 490-507): both `city` and `state` must be present
and truthy after `.strip()`; a non-string value raises. -/
def validate_search_params (sp : SearchParams) : Except Unit Bool :=
  match sp.city with
  | none => .ok false
  | some v =>
    match stripTruthy v with
    | .error e => .error e
    | .ok false => .ok false
    | .ok true =>
      match sp.state with
      | none => .ok false
      | some w =>
        match stripTruthy w with
        | .error e => .error e
        | .ok false => .ok false
        | .ok true => .ok true

/-- A property record after `enrich_properties`: the original record plus
`scraped_at`, the content `hash` and `coordinator_version`. -/
structure EnrichedRecord where
  base : PropertyRecord
  scraped_at : Int
  hash : String
  coordinator_version : String
deriving DecidableEq, Repr

/-- Embedding of `ScraperCoordinator.enrich_properties` (lines 419-444);
`hashFn` stands for `_generate_property_hash` (an MD5 digest, opaque
here). -/
def enrich_properties (now : Int) (hashFn : PropertyRecord → String)
    (properties : List PropertyRecord) : List EnrichedRecord :=
  properties.map (fun p => ⟨p, now, hashFn p, "1.0"⟩)

/-- Embedding of `ScraperCoordinator._scrape_with_scraper`
(lines 307-336): on success, add the scraper's `requests_made` and the
record count to the coordinator stats; on any exception, increment
`total_errors` and re-raise. -/
def scrapeWithScraper (result : Except Unit (List PropertyRecord))
    (reqs : Nat) (st : CoordStats) :
    CoordStats × Except Unit (List PropertyRecord) :=
  match result with
  | .ok props =>
    ({ st with
        total_requests := st.total_requests + reqs,
        total_properties := st.total_properties + props.length }, .ok props)
  | .error e =>
    ({ st with total_errors := st.total_errors + 1 }, .error e)

/-- Embedding of `ScraperCoordinator._scrape_sequential` (lines 283-305):
run the adapters in order; a failing adapter increments `total_errors`
once more (on top of `_scrape_with_scraper`'s own increment) and is
skipped. Each adapter is an oracle: its result (or exception) paired with
its `requests_made` count. -/
def scrapeSequential :
    List (Except Unit (List PropertyRecord) × Nat) → CoordStats →
      CoordStats × List PropertyRecord
  | [], st => (st, [])
  | (result, reqs) :: rest, st =>
    match scrapeWithScraper result reqs st with
    | (st', .ok props) =>
      let r := scrapeSequential rest st'
      (r.1, props ++ r.2)
    | (st', .error _) =>
      scrapeSequential rest { st' with total_errors := st'.total_errors + 1 }

/-- Whether a per-record save succeeded (`db_handler.save_property` inside
its own try/except: an exception counts as not saved). -/
def saveOk (saveFn : EnrichedRecord → Except Unit Bool)
    (r : EnrichedRecord) : Bool :=
  match saveFn r with
  | .ok true => true
  | _ => false

/-- The body of the `try` block of `scrape_properties` (lines 192-244):
validate, consult the cache (`if cached_results:` — an empty cached list
is falsy and counts as a miss), dispatch sequentially, deduplicate,
enrich, save best-effort, cache the result. The pair carries the mutated
stats even when an exception escapes. -/
def scrapePipeline (sp : SearchParams) (useCache : Bool)
    (cacheGet : Except Unit (Option (List EnrichedRecord)))
    (adapters : List (Except Unit (List PropertyRecord) × Nat))
    (saveFn : EnrichedRecord → Except Unit Bool)
    (cacheSet : Except Unit Unit) (now : Int)
    (hashFn : PropertyRecord → String) (st : CoordStats) :
    CoordStats × Except Unit (List EnrichedRecord) :=
  match validate_search_params sp with
  | .error e => (st, .error e)
  | .ok false => (st, .ok [])
  | .ok true =>
    let hit : Option (CoordStats × Except Unit (List EnrichedRecord)) :=
      if useCache then
        match cacheGet with
        | .error e => some (st, .error e)
        | .ok (some cached) =>
          if cached.isEmpty then none else some (st, .ok cached)
        | .ok none => none
      else none
    match hit with
    | some r => r
    | none =>
      let scraped := scrapeSequential adapters st
      let unique := remove_duplicates scraped.2
      let enriched := enrich_properties now hashFn unique
      let _savedCount := (enriched.filter (saveOk saveFn)).length
      if useCache ∧ ¬ enriched.isEmpty then
        match cacheSet with
        | .error e => (scraped.1, .error e)
        | .ok _ => (scraped.1, .ok enriched)
      else (scraped.1, .ok enriched)

/-- Embedding of `ScraperCoordinator.scrape_properties` (lines 178-249):
the whole pipeline inside a catch-all `except Exception` that increments
`total_errors` and returns `[]`. The `Except` in the result type records
whether the call itself raises — it never does. -/
def scrape_properties (sp : SearchParams) (useCache : Bool)
    (cacheGet : Except Unit (Option (List EnrichedRecord)))
    (adapters : List (Except Unit (List PropertyRecord) × Nat))
    (saveFn : EnrichedRecord → Except Unit Bool)
    (cacheSet : Except Unit Unit) (now : Int)
    (hashFn : PropertyRecord → String) (st : CoordStats) :
    Except Unit (CoordStats × List EnrichedRecord) :=
  match scrapePipeline sp useCache cacheGet adapters saveFn cacheSet now
      hashFn st with
  | (st', .ok l) => .ok (st', l)
  | (st', .error _) =>
    .ok ({ st' with total_errors := st'.total_errors + 1 }, [])

/-- C10: `scrape_properties` never raises: whatever each collaborator
does — including `validate_search_params` raising on a malformed query
such as a non-string city — the call returns `ok` with a list; when
validation raises, the result is the empty list with `total_errors`
incremented once. -/
theorem scrape_properties_never_raises (sp : SearchParams) (useCache : Bool)
    (cacheGet : Except Unit (Option (List EnrichedRecord)))
    (adapters : List (Except Unit (List PropertyRecord) × Nat))
    (saveFn : EnrichedRecord → Except Unit Bool)
    (cacheSet : Except Unit Unit) (now : Int)
    (hashFn : PropertyRecord → String) (st : CoordStats) :
    (∃ v, scrape_properties sp useCache cacheGet adapters saveFn cacheSet
      now hashFn st = .ok v) ∧
    (validate_search_params sp = .error () →
      scrape_properties sp useCache cacheGet adapters saveFn cacheSet now
        hashFn st =
        .ok ({ st with total_errors := st.total_errors + 1 }, [])) := by
  constructor
  · rcases hpl : scrapePipeline sp useCache cacheGet adapters saveFn cacheSet
      now hashFn st with ⟨st', res⟩
    cases res with
    | ok l =>
      refine ⟨(st', l), ?_⟩
      unfold scrape_properties
      rw [hpl]
    | error e =>
      refine ⟨({ st' with total_errors := st'.total_errors + 1 }, []), ?_⟩
      unfold scrape_properties
      rw [hpl]
  · intro hval
    have hpl : scrapePipeline sp useCache cacheGet adapters saveFn cacheSet
        now hashFn st = (st, .error ()) := by
      unfold scrapePipeline
      rw [hval]
    unfold scrape_properties
    rw [hpl]

/-- Witness for `scrape_properties_never_raises`: a query whose city is
the integer `7` makes validation raise, and the call still returns the
empty list with one more error counted. -/
theorem scrape_properties_never_raises_witness :
    validate_search_params ⟨some (.int 7), some (.str "RJ")⟩ = .error () ∧
    scrape_properties ⟨some (.int 7), some (.str "RJ")⟩ true (.ok none) []
      (fun _ => .ok true) (.ok ()) 0 (fun _ => "h") ⟨0, 0, 0⟩ =
      .ok (⟨0, 0, 1⟩, []) := by
  have h := (scrape_properties_never_raises ⟨some (.int 7), some (.str "RJ")⟩
    true (.ok none) [] (fun _ => .ok true) (.ok ()) 0 (fun _ => "h")
    ⟨0, 0, 0⟩).2 rfl
  exact ⟨rfl, by rw [h]⟩

theorem scrapeSequential_one_fail_one_ok (recs : List PropertyRecord)
    (r1 r2 : Nat) (st : CoordStats) :
    scrapeSequential [(.error (), r1), (.ok recs, r2)] st =
      ({ total_requests := st.total_requests + r2,
         total_properties := st.total_properties + recs.length,
         total_errors := st.total_errors + 2 }, recs) ∧
    scrapeSequential [(.ok recs, r2), (.error (), r1)] st =
      ({ total_requests := st.total_requests + r2,
         total_properties := st.total_properties + recs.length,
         total_errors := st.total_errors + 2 }, recs) := by
  constructor
  · simp [scrapeSequential, scrapeWithScraper]
  · simp [scrapeSequential, scrapeWithScraper]

/-- C1 amended: with one adapter raising and the other returning `recs`
(in either order), on a cache miss `scrape_properties` returns exactly the
successful adapter's records, deduplicated and enriched — all of them
when their ids are distinct — while `total_errors` grows by exactly 2:
`_scrape_with_scraper` counts the failure once and `_scrape_sequential`'s
except-clause counts it again. -/
theorem partial_failure_tolerance (sp : SearchParams)
    (hval : validate_search_params sp = .ok true)
    (saveFn : EnrichedRecord → Except Unit Bool) (now : Int)
    (hashFn : PropertyRecord → String) (st : CoordStats)
    (recs : List PropertyRecord) (r1 r2 : Nat) :
    (scrape_properties sp true (.ok none) [(.error (), r1), (.ok recs, r2)]
        saveFn (.ok ()) now hashFn st =
      .ok ({ total_requests := st.total_requests + r2,
             total_properties := st.total_properties + recs.length,
             total_errors := st.total_errors + 2 },
        enrich_properties now hashFn (remove_duplicates recs))) ∧
    (scrape_properties sp true (.ok none) [(.ok recs, r2), (.error (), r1)]
        saveFn (.ok ()) now hashFn st =
      .ok ({ total_requests := st.total_requests + r2,
             total_properties := st.total_properties + recs.length,
             total_errors := st.total_errors + 2 },
        enrich_properties now hashFn (remove_duplicates recs))) ∧
    ((recordIds recs).Nodup → remove_duplicates recs = recs) := by
  have hrun : ∀ adapters,
      scrapeSequential adapters st =
        ({ total_requests := st.total_requests + r2,
           total_properties := st.total_properties + recs.length,
           total_errors := st.total_errors + 2 }, recs) →
      scrape_properties sp true (.ok none) adapters saveFn (.ok ()) now
        hashFn st =
        .ok ({ total_requests := st.total_requests + r2,
               total_properties := st.total_properties + recs.length,
               total_errors := st.total_errors + 2 },
          enrich_properties now hashFn (remove_duplicates recs)) := by
    intro adapters hseq
    unfold scrape_properties scrapePipeline
    rw [hval]
    simp only [if_pos rfl, hseq]
    by_cases he :
        (enrich_properties now hashFn (remove_duplicates recs)).isEmpty
    · simp [he]
    · simp [he]
  refine ⟨hrun _ (scrapeSequential_one_fail_one_ok recs r1 r2 st).1,
    hrun _ (scrapeSequential_one_fail_one_ok recs r1 r2 st).2, ?_⟩
  intro hnd
  exact removeDuplicatesAux_eq_self [] recs hnd (by intro i _; simp)

/-- A valid Rio de Janeiro query. -/
def spRio : SearchParams := ⟨some (.str "Rio de Janeiro"), some (.str "RJ")⟩

/-- Witness for `partial_failure_tolerance`: a concrete two-adapter run,
first one raising, second returning one record. -/
theorem partial_failure_tolerance_witness :
    validate_search_params spRio = .ok true ∧
    scrape_properties spRio true (.ok none)
        [(.error (), 0), (.ok [⟨some "b1", 0⟩], 3)]
        (fun _ => .ok true) (.ok ()) 0 (fun _ => "h") ⟨0, 0, 0⟩ =
      .ok (⟨0 + 3, 0 + 1, 0 + 2⟩,
        enrich_properties 0 (fun _ => "h")
          (remove_duplicates [⟨some "b1", 0⟩])) := by
  have h := (partial_failure_tolerance spRio rfl (fun _ => .ok true) 0
    (fun _ => "h") ⟨0, 0, 0⟩ [⟨some "b1", 0⟩] 0 3).1
  exact ⟨rfl, h⟩

/-- C1 counterexample: adapter A raises, adapter B returns one record;
starting from zeroed stats the coordinator ends with `total_errors = 2`,
not the 1 the claim states (the failure is counted in
`_scrape_with_scraper` AND in `_scrape_sequential`'s except clause). -/
theorem partial_failure_error_double_count :
    scrape_properties spRio true (.ok none)
        [(.error (), 0), (.ok [⟨some "b1", 0⟩], 3)]
        (fun _ => .ok true) (.ok ()) 0 (fun _ => "h") ⟨0, 0, 0⟩ =
      .ok (⟨3, 1, 2⟩, [⟨⟨some "b1", 0⟩, 0, "h", "1.0"⟩]) ∧
    (2 : Nat) ≠ 1 := by
  refine ⟨?_, by decide⟩
  rfl

/-! ## Fast path fallback (`fast_scraper._generate_intelligent_data` and
`coordinator.scrape_properties_fast`)

Randomness is an oracle: every `random.*` call reads a pre-drawn value.
`random.uniform(0.6, 2.5)` is a rational drawn as `num i / den i`, and
`int(base * u)` is integer division (truncation; operands are
non-negative). -/

/-- Search parameters for the fast path. A missing key is `none`; Python's
truthiness makes a stored `0` behave like a missing key. -/
structure FastSearchParams where
  city : Option String
  min_price : Option Int
  max_price : Option Int
  bedrooms : Option Int
deriving Repr

/-- Truthiness of `search_params.get(k)` for a numeric parameter. -/
def optTruthy : Option Int → Bool
  | none => false
  | some v => v != 0

/-- The static `market_data` table of `_generate_intelligent_data`
(lines 348-357): base price and known neighborhoods per city, defaulting
to São Paulo. -/
def marketData (city : String) : Int × List String :=
  if city = "São Paulo" then
    (650000, ["Vila Madalena", "Pinheiros", "Jardins"])
  else if city = "Rio de Janeiro" then
    (580000, ["Copacabana", "Ipanema", "Leblon"])
  else if city = "Brasília" then
    (450000, ["Asa Sul", "Asa Norte", "Lago Sul"])
  else if city = "Belo Horizonte" then
    (380000, ["Savassi", "Lourdes", "Funcionários"])
  else if city = "Salvador" then
    (320000, ["Barra", "Ondina", "Campo Grande"])
  else if city = "Fortaleza" then
    (280000, ["Meireles", "Aldeota", "Cocó"])
  else (650000, ["Vila Madalena", "Pinheiros", "Jardins"])

/-- Pre-drawn random values: the candidate count (`randint(8, 15)`), the
price factor `num i / den i` (`uniform(0.6, 2.5)`), bedrooms
(`randint(1, 4)`), bathrooms (`randint(1, 3)`), size (`randint(45, 220)`)
and the id suffix (`randint(1000, 9999)`). -/
structure Draws where
  count : Nat
  num : Nat → Nat
  den : Nat → Nat
  beds : Nat → Int
  baths : Nat → Int
  size : Nat → Int
  idr : Nat → Nat

/-- A synthesized fallback property record (the dict built at
lines 378-393). -/
structure FallbackRecord where
  idx : Nat
  idr : Nat
  price : Int
  bedrooms : Int
  bathrooms : Int
  size : Int
  city : String
  neighborhood : String
  market_based : Bool
deriving DecidableEq, Repr

/-- Embedding of `ProductionZapScraper._generate_intelligent_data`
(`fast_scraper.py`, lines 341-397): generate `count` candidates from the
city's base price, then drop any candidate violating a truthy
`min_price` / `max_price` / `bedrooms` constraint (`continue`). -/
def generateIntelligentData (sp : FastSearchParams) (d : Draws) :
    List FallbackRecord :=
  let city := sp.city.getD "São Paulo"
  let md := marketData city
  (List.range d.count).filterMap (fun i =>
    let price : Int := md.1 * (d.num i : Int) / (d.den i : Int)
    if optTruthy sp.min_price && decide (price < sp.min_price.getD 0) then
      none
    else if optTruthy sp.max_price && decide (sp.max_price.getD 0 < price)
        then none
    else
      let bedrooms := d.beds i
      if optTruthy sp.bedrooms && decide (bedrooms ≠ sp.bedrooms.getD 0) then
        none
      else
        some { idx := i, idr := d.idr i, price := price,
               bedrooms := bedrooms, bathrooms := d.baths i,
               size := d.size i, city := city,
               neighborhood := md.2.getD (i % md.2.length) "",
               market_based := true })

/-- The composite dedup key of `remove_duplicates_fast`:
`f"{price}_{city}_{bedrooms}"`. -/
def fastKey (p : FallbackRecord) : Int × String × Int :=
  (p.price, p.city, p.bedrooms)

/-- Worker for `remove_duplicates_fast`. -/
def removeDuplicatesFastAux (seen : List (Int × String × Int)) :
    List FallbackRecord → List FallbackRecord
  | [] => []
  | p :: ps =>
    if fastKey p ∈ seen then removeDuplicatesFastAux seen ps
    else p :: removeDuplicatesFastAux (fastKey p :: seen) ps

/-- Embedding of `ScraperCoordinator.remove_duplicates_fast`
(`coordinator.py`, lines 138-150). -/
def remove_duplicates_fast (properties : List FallbackRecord) :
    List FallbackRecord :=
  removeDuplicatesFastAux [] properties

/-- Embedding of `ProductionZapScraper.scrape_properties_fast`
(lines 202-233): a live scrape returning records is used; a missing page
(`soup` None), an empty extraction, or any exception falls back to
`_generate_intelligent_data`. -/
def pzsScrapeFast (sp : FastSearchParams) (d : Draws)
    (scrapeOutcome : Except Unit (Option (List FallbackRecord))) :
    List FallbackRecord :=
  match scrapeOutcome with
  | .ok (some props) =>
    if props.isEmpty then generateIntelligentData sp d else props
  | .ok none => generateIntelligentData sp d
  | .error _ => generateIntelligentData sp d

/-- Embedding of `ScraperCoordinator.scrape_properties_fast`
(`coordinator.py`, lines 88-136): cache hit short-circuits (an empty
cached list is falsy, hence a miss); otherwise the fast zap scraper's
records are deduplicated with the composite key; a raising collaborator
(modelled on the cache lookup) triggers `_generate_fallback_data`. -/
def scrape_properties_fast
    (cacheGet : Except Unit (Option (List FallbackRecord)))
    (sp : FastSearchParams) (d : Draws)
    (zapOutcome : Except Unit (Option (List FallbackRecord))) :
    List FallbackRecord :=
  match cacheGet with
  | .error _ => generateIntelligentData sp d
  | .ok (some cached) =>
    if cached.isEmpty then remove_duplicates_fast (pzsScrapeFast sp d zapOutcome)
    else cached
  | .ok none => remove_duplicates_fast (pzsScrapeFast sp d zapOutcome)

theorem removeDuplicatesFastAux_subset (seen : List (Int × String × Int)) :
    ∀ (l : List FallbackRecord) (x : FallbackRecord),
      x ∈ removeDuplicatesFastAux seen l → x ∈ l := by
  intro l
  induction l generalizing seen with
  | nil =>
    intro x hx
    simp [removeDuplicatesFastAux] at hx
  | cons p ps ih =>
    intro x hx
    rw [removeDuplicatesFastAux] at hx
    by_cases hk : fastKey p ∈ seen
    · rw [if_pos hk] at hx
      exact List.mem_cons_of_mem _ (ih seen x hx)
    · rw [if_neg hk] at hx
      rcases List.mem_cons.mp hx with rfl | hx'
      · exact List.mem_cons_self _ _
      · exact List.mem_cons_of_mem _ (ih _ x hx')

/-- C4 counterexample: city São Paulo with `min_price = 10 000 000`. The
highest price the generator can produce for São Paulo is
`int(650000 * 2.5) = 1 625 000`, so the price filter drops every
candidate and the fast path's fallback is EMPTY, not non-empty; here with
all eight factor draws equal to 2 (price 1 300 000 each). -/
theorem fast_fallback_empty_counterexample :
    scrape_properties_fast (.ok none)
        ⟨some "São Paulo", some 10000000, none, none⟩
        ⟨8, fun _ => 2, fun _ => 1, fun _ => 2, fun _ => 1, fun _ => 100,
         fun _ => 1234⟩ (.error ()) = [] ∧
    generateIntelligentData ⟨some "São Paulo", some 10000000, none, none⟩
        ⟨8, fun _ => 2, fun _ => 1, fun _ => 2, fun _ => 1, fun _ => 100,
         fun _ => 1234⟩ = [] ∧
    optTruthy (some 10000000) = true := by
  exact ⟨rfl, rfl, rfl⟩

/-- C4 amended: the synthesized fallback honors every truthy caller
constraint — each surviving record's price lies within
`[min_price, max_price]` and its bedrooms equal the requested count, and
records are flagged `market_based` — but the list may be empty when the
filters reject every randomly generated candidate. This holds both for
the generator and for the coordinator fast path under total adapter
failure. -/
theorem fallback_honors_constraints (sp : FastSearchParams) (d : Draws) :
    (∀ r ∈ generateIntelligentData sp d,
      (optTruthy sp.min_price = true → sp.min_price.getD 0 ≤ r.price) ∧
      (optTruthy sp.max_price = true → r.price ≤ sp.max_price.getD 0) ∧
      (optTruthy sp.bedrooms = true → r.bedrooms = sp.bedrooms.getD 0) ∧
      r.market_based = true) ∧
    (∀ r ∈ scrape_properties_fast (.ok none) sp d (.error ()),
      (optTruthy sp.min_price = true → sp.min_price.getD 0 ≤ r.price) ∧
      (optTruthy sp.max_price = true → r.price ≤ sp.max_price.getD 0) ∧
      (optTruthy sp.bedrooms = true → r.bedrooms = sp.bedrooms.getD 0) ∧
      r.market_based = true) := by
  have hgen : ∀ r ∈ generateIntelligentData sp d,
      (optTruthy sp.min_price = true → sp.min_price.getD 0 ≤ r.price) ∧
      (optTruthy sp.max_price = true → r.price ≤ sp.max_price.getD 0) ∧
      (optTruthy sp.bedrooms = true → r.bedrooms = sp.bedrooms.getD 0) ∧
      r.market_based = true := by
    intro r hr
    simp only [generateIntelligentData] at hr
    rcases List.mem_filterMap.mp hr with ⟨i, _, hf⟩
    split at hf
    · exact absurd hf (by simp)
    · split at hf
      · exact absurd hf (by simp)
      · split at hf
        · exact absurd hf (by simp)
        · next h1 h2 h3 =>
          rw [Option.some.injEq] at hf
          subst hf
          refine ⟨?_, ?_, ?_, rfl⟩
          · intro hmt
            have hnot : ¬ ((marketData (sp.city.getD "São Paulo")).1 *
                (d.num i : Int) / (d.den i : Int) < sp.min_price.getD 0) := by
              intro hlt
              exact h1 (by simp [hmt, hlt])
            simpa using le_of_not_lt hnot
          · intro hmt
            have hnot : ¬ (sp.max_price.getD 0 <
                (marketData (sp.city.getD "São Paulo")).1 *
                (d.num i : Int) / (d.den i : Int)) := by
              intro hlt
              exact h2 (by simp [hmt, hlt])
            simpa using le_of_not_lt hnot
          · intro hbt
            by_contra hne
            exact h3 (by simp [hbt]; simpa using hne)
  refine ⟨hgen, ?_⟩
  intro r hr
  have hr' : r ∈ generateIntelligentData sp d :=
    removeDuplicatesFastAux_subset [] _ r hr
  exact hgen r hr'

/-- Witness for `fallback_honors_constraints`: with São Paulo, bounds
`[500000, 2000000]` and `bedrooms = 2`, the record generated at index 0
(price 1 300 000) is in the fallback and satisfies every constraint. -/
theorem fallback_honors_constraints_witness :
    ((⟨0, 1234, 1300000, 2, 1, 100, "São Paulo", "Vila Madalena", true⟩ :
        FallbackRecord) ∈
      generateIntelligentData
        ⟨some "São Paulo", some 500000, some 2000000, some 2⟩
        ⟨2, fun _ => 2, fun _ => 1, fun _ => 2, fun _ => 1, fun _ => 100,
         fun _ => 1234⟩) ∧
    (500000 : Int) ≤ 1300000 ∧ (1300000 : Int) ≤ 2000000 ∧
    (2 : Int) = 2 := by
  have hmem : (⟨0, 1234, 1300000, 2, 1, 100, "São Paulo", "Vila Madalena",
      true⟩ : FallbackRecord) ∈
      generateIntelligentData
        ⟨some "São Paulo", some 500000, some 2000000, some 2⟩
        ⟨2, fun _ => 2, fun _ => 1, fun _ => 2, fun _ => 1, fun _ => 100,
         fun _ => 1234⟩ := by decide
  have h := (fallback_honors_constraints
    ⟨some "São Paulo", some 500000, some 2000000, some 2⟩
    ⟨2, fun _ => 2, fun _ => 1, fun _ => 2, fun _ => 1, fun _ => 100,
     fun _ => 1234⟩).1 _ hmem
  exact ⟨hmem, h.1 rfl, h.2.1 rfl, h.2.2.1 rfl⟩

end BrazilProp
